import Mathlib

/-!
Shallow embedding of the EyeOnProps dual-mode change-detection engine
(source: `src/index.ts`, v2.1.0 with weak references and a finalization
registry).  JavaScript values are modelled by an inductive `Value` with
strict (identity-or-primitive) equality as decidable equality; objects are
identified by numeric identities and live in an explicit `Heap`; an
unreachable (collected) object is one the heap maps to `none`.  Record
payloads are association lists built by `objInsert`, which mirrors
JavaScript record assignment (overwrite in place, else append).
-/

/-- A JavaScript value as far as the engine compares them: strict `!==`
comparison is decidable equality on this type.  `vobj` carries an object
identity, so `vobj`-equality is reference identity. -/
inductive Value where
  | undef
  | vint (n : Int)
  | vstr (s : String)
  | vobj (id : Nat)
deriving DecidableEq

/-- An object's own property table. -/
structure Obj where
  props : List (String × Value)
deriving DecidableEq

/-- Lookup of a property in a property table (first match). -/
def lookupProp : List (String × Value) → String → Option Value
  | [], _ => none
  | q :: rest, p => if q.1 = p then some q.2 else lookupProp rest p

/-- Reading `instance[prop]`: a missing property reads as `undefined`. -/
def readProp (o : Obj) (p : String) : Value :=
  (lookupProp o.props p).getD Value.undef

/-- The JavaScript `prop in instance` test (own properties). -/
def hasProp (o : Obj) (p : String) : Bool :=
  (lookupProp o.props p).isSome

/-- The heap maps object identities to objects; `none` means the object
has been garbage collected (a `WeakRef.deref` miss). -/
abbrev Heap := Nat → Option Obj

/-- Record assignment `m[k] = v` on an association-list record: overwrite
the existing binding in place, otherwise append a new one. -/
def objInsert {A : Type} (m : List (String × A)) (k : String) (v : A) :
    List (String × A) :=
  if m.any (fun q => decide (q.1 = k)) then
    m.map (fun q => if q.1 = k then (k, v) else q)
  else m ++ [(k, v)]

/-- Writing `instance[prop] = v` through the heap. -/
def heapWrite (h : Heap) (objId : Nat) (p : String) (v : Value) : Heap :=
  fun id => if id = objId then (h id).map (fun o => ⟨objInsert o.props p v⟩) else h id

/-- Emission policy: `'all' | 'changed' | 'undefined'` in the source. -/
inductive EyeOnPropsMode where
  | all
  | changed
  | undefined
deriving DecidableEq

/-- Detection strategy: `'clock' | 'real-time' | 'undefined'` in the source. -/
inductive EyeOnPropsType where
  | clock
  | realTime
  | undefined
deriving DecidableEq

/-- One registration of an attribute on one object instance, with the
weak reference represented by the referent's identity. -/
structure WatchedEntry where
  instanceRef : Nat
  prop : String
  key : String
  lastValue : Value
deriving DecidableEq

/-- The engine state: watched entries, emission mode, detection type, the
poll timer (interval value when armed), and the pairs the finalization
registry was asked to track (`registry.register(instance, key)`). -/
structure EyeOnProps where
  entries : List WatchedEntry
  mode : EyeOnPropsMode
  type : EyeOnPropsType
  intervalId : Option Nat
  registrations : List (Nat × String)
deriving DecidableEq

/-- The state of a freshly constructed engine (field initializers of the
class declaration). -/
def initEyeOnProps : EyeOnProps :=
  { entries := [], mode := EyeOnPropsMode.changed, type := EyeOnPropsType.undefined,
    intervalId := none, registrations := [] }

/-- The error taxonomy of the engine (each `throw new Error(...)` site,
named as in the specification). -/
inductive EyeError where
  | attributeNotFound (prop : String)
  | illegalStrategyTransition
  | invalidRegistrationArguments
  | invalidModeOperation
deriving DecidableEq

/-- A simple payload: display key to current value. -/
abbrev Payload := List (String × Value)

/-- A detailed payload: display key to a (new, old) pair. -/
abbrev FullPayload := List (String × (Value × Value))

/-- An event published on the notification channel. -/
inductive Event where
  | change (payload : Payload)
  | changeFull (payload : FullPayload)
deriving DecidableEq

/-- Whether an event is the detailed old/new notification. -/
def Event.isFull : Event → Bool
  | Event.change _ => false
  | Event.changeFull _ => true

/-- Whether a fallible internal operation returned normally. -/
def exceptIsOk {A : Type} : Except EyeError A → Bool
  | Except.ok _ => true
  | Except.error _ => false

/-- The private `addEntry(instance, prop, key)`: throw
`attributeNotFound` when the property is absent, else push an entry
snapshotting the current value and register the instance with the
finalization registry under the display key.  A thrown error is returned
next to the (unchanged) state. -/
def EyeOnProps.addEntry (s : EyeOnProps) (instId : Nat) (inst : Obj)
    (prop key : String) : EyeOnProps × Option EyeError :=
  if hasProp inst prop = false then
    (s, some (EyeError.attributeNotFound prop))
  else
    ({ s with
        entries := s.entries ++
          [{ instanceRef := instId, prop := prop, key := key,
             lastValue := readProp inst prop }],
        registrations := s.registrations ++ [(instId, key)] }, none)

/-- The `clock(ms)` activator: refuse after `realTime()`, else switch the
type to `clock`, clear any previous timer and arm a new one. -/
def EyeOnProps.clock (s : EyeOnProps) (ms : Nat) : EyeOnProps × Option EyeError :=
  if s.type = EyeOnPropsType.realTime then
    (s, some EyeError.illegalStrategyTransition)
  else
    ({ s with type := EyeOnPropsType.clock, intervalId := some ms }, none)

/-- The state transition of the `realTime()` activator: set the type and
clear the poll timer.  The attribute rewriting it performs is on the
heap side; the behaviour of an installed setter is `realTimeSet`. -/
def EyeOnProps.realTime (s : EyeOnProps) : EyeOnProps :=
  { s with type := EyeOnPropsType.realTime, intervalId := none }

/-- The `all()` policy selector. -/
def EyeOnProps.all (s : EyeOnProps) : EyeOnProps :=
  { s with mode := EyeOnPropsMode.all }

/-- The `changedOnly()` policy selector. -/
def EyeOnProps.changedOnly (s : EyeOnProps) : EyeOnProps :=
  { s with mode := EyeOnPropsMode.changed }

/-- The finalization registry's callback body for one held key:
`this.entries = this.entries.filter(e => e.key !== key)`. -/
def EyeOnProps.finalizeKey (s : EyeOnProps) (key : String) : EyeOnProps :=
  { s with entries := s.entries.filter (fun e => decide (e.key ≠ key)) }

/-- The held keys whose callbacks fire when the object `objId` is
collected: one per registration of that object. -/
def collectedKeys (s : EyeOnProps) (objId : Nat) : List String :=
  (s.registrations.filter (fun r => decide (r.1 = objId))).map Prod.snd

/-- Collection of object `objId`: the runtime fires the finalization
callback once per registration of that object, in registration order. -/
def EyeOnProps.onCollect (s : EyeOnProps) (objId : Nat) : EyeOnProps :=
  (collectedKeys s objId).foldl EyeOnProps.finalizeKey s

/-- The `unwatch(instance)` method:
`this.entries.filter(e => { const inst = e.instanceRef.deref(); return inst && inst !== instance; })`. -/
def EyeOnProps.unwatch (s : EyeOnProps) (h : Heap) (objId : Nat) : EyeOnProps :=
  { s with entries := s.entries.filter (fun e =>
      match h e.instanceRef with
      | some _ => decide (e.instanceRef ≠ objId)
      | none => false) }

/-- The loop body of the private `check()`: a `filter` over the entries
with side effects on the `updates` record and on each entry's
`lastValue`, processed left to right.  Returns the surviving entries and
the accumulated updates record. -/
def checkLoop (mode : EyeOnPropsMode) (h : Heap) :
    List WatchedEntry → Payload → List WatchedEntry × Payload
  | [], updates => ([], updates)
  | e :: rest, updates =>
    match h e.instanceRef with
    | none => checkLoop mode h rest updates
    | some inst =>
      let current := readProp inst e.prop
      let updates1 :=
        if mode = EyeOnPropsMode.all ∨ current ≠ e.lastValue then
          objInsert updates e.key current
        else updates
      let e1 := if current ≠ e.lastValue then { e with lastValue := current } else e
      let r := checkLoop mode h rest updates1
      (e1 :: r.1, r.2)

/-- The private `check()` run on one poll tick: filter the entries,
accumulate the updates record, and publish a `change` event exactly when
the record is non-empty. -/
def EyeOnProps.check (s : EyeOnProps) (h : Heap) : EyeOnProps × List Event :=
  let r := checkLoop s.mode h s.entries []
  ({ s with entries := r.1 },
   if r.2 = [] then [] else [Event.change r.2])

/-- The private `buildAllPayload()`: current value of every entry whose
referent is reachable, keyed by display key. -/
def EyeOnProps.buildAllPayload (s : EyeOnProps) (h : Heap) : Payload :=
  s.entries.foldl (fun acc e =>
    match h e.instanceRef with
    | some inst => objInsert acc e.key (readProp inst e.prop)
    | none => acc) []

/-- The private `buildFullAllPayload()`: throws `invalidModeOperation`
outside `all` mode, else the (new, old) pair of every reachable entry. -/
def EyeOnProps.buildFullAllPayload (s : EyeOnProps) (h : Heap) :
    Except EyeError FullPayload :=
  if s.mode ≠ EyeOnPropsMode.all then Except.error EyeError.invalidModeOperation
  else Except.ok (s.entries.foldl (fun acc e =>
    match h e.instanceRef with
    | some inst => objInsert acc e.key (readProp inst e.prop, e.lastValue)
    | none => acc) [])

/-- The setter installed by `realTime()` on the entry at position `i`,
invoked with the written value `v`.  The captured closure value is the
observable property value in the heap; on an actual change the heap is
written, payloads are built (detailed first, as in the source), the
`change` event is published before `change:full`, and the entry's
`lastValue` is stamped to `v` afterwards. -/
def EyeOnProps.realTimeSet (s : EyeOnProps) (h : Heap) (i : Nat) (v : Value) :
    Except EyeError (EyeOnProps × Heap × List Event) :=
  match s.entries[i]? with
  | none => Except.ok (s, h, [])
  | some e =>
    match h e.instanceRef with
    | none => Except.ok (s, h, [])
    | some inst =>
      if v = readProp inst e.prop then Except.ok (s, h, [])
      else
        let h2 := heapWrite h e.instanceRef e.prop v
        if s.mode = EyeOnPropsMode.undefined then
          Except.ok ({ s with entries := s.entries.set i { e with lastValue := v } }, h2, [])
        else
          match (if s.mode = EyeOnPropsMode.all then s.buildFullAllPayload h2
                 else Except.ok (if v ≠ e.lastValue then [(e.key, (v, e.lastValue))] else [])) with
          | Except.error err => Except.error err
          | Except.ok fullPayload =>
            let payload :=
              if s.mode = EyeOnPropsMode.all then s.buildAllPayload h2 else [(e.key, v)]
            Except.ok
              ({ s with entries := s.entries.set i { e with lastValue := v } }, h2,
               (if payload = [] then [] else [Event.change payload]) ++
               (if fullPayload = [] then [] else [Event.changeFull fullPayload]))

/-- Modelled from the spec (section 4.3): the payload a poll tick should
emit — under `all`, the current value of every reachable entry; under
`changedOnly`, exactly the reachable entries whose current value differs
from the cached `lastValue`. -/
def specPollPayload (mode : EyeOnPropsMode) (h : Heap) (es : List WatchedEntry) : Payload :=
  es.filterMap (fun e =>
    match h e.instanceRef with
    | none => none
    | some inst =>
      let current := readProp inst e.prop
      if mode = EyeOnPropsMode.all ∨ current ≠ e.lastValue then some (e.key, current)
      else none)

/-- Characterization of the entry list after one poll tick: unreachable
entries are dropped, reachable ones survive in order with `lastValue`
re-stamped exactly when the value changed. -/
def pollResultEntries (h : Heap) (es : List WatchedEntry) : List WatchedEntry :=
  es.filterMap (fun e =>
    match h e.instanceRef with
    | none => none
    | some inst =>
      let current := readProp inst e.prop
      if current ≠ e.lastValue then some { e with lastValue := current } else some e)

/-- The structural identity of an entry: everything except `lastValue`. -/
def entrySkeleton (e : WatchedEntry) : Nat × String × String :=
  (e.instanceRef, e.prop, e.key)

/-- Concrete object for the interception scenarios: one `name` attribute. -/
def c3Obj : Obj := ⟨[("name", Value.vstr "A")]⟩

/-- Concrete heap holding `c3Obj` at identity 1. -/
def c3Heap : Heap := fun id => if id = 1 then some c3Obj else none

/-- Concrete entry watching `c3Obj.name` under display key `n`. -/
def c3Entry : WatchedEntry := ⟨1, "name", "n", Value.vstr "A"⟩

/-- Concrete engine in `changedOnly` mode with interception active. -/
def c3State : EyeOnProps :=
  ⟨[c3Entry], EyeOnPropsMode.changed, EyeOnPropsType.realTime, none, [(1, "n")]⟩

/-- Concrete engine watching two distinct objects under the same display
key, as the finalization registry was asked to track them. -/
def c2cexState : EyeOnProps :=
  ⟨[⟨1, "p", "k", Value.vint 0⟩, ⟨2, "p", "k", Value.vint 0⟩],
   EyeOnPropsMode.changed, EyeOnPropsType.undefined, none, [(1, "k"), (2, "k")]⟩

/-- Concrete heap in which every watched object has been collected. -/
def deadHeap : Heap := fun _ => none

/-- Concrete polling engine with a single watched entry whose referent is
unreachable under `deadHeap`. -/
def c6State : EyeOnProps :=
  ⟨[⟨1, "p", "q", Value.vint 0⟩], EyeOnPropsMode.changed, EyeOnPropsType.clock,
   some 50, [(1, "q")]⟩

/-- Concrete engine with one entry, for the `unwatch` scenarios. -/
def c7State : EyeOnProps :=
  ⟨[⟨1, "p", "k", Value.vint 0⟩], EyeOnPropsMode.changed, EyeOnPropsType.undefined,
   none, [(1, "k")]⟩

/-- Concrete live object with a `p` attribute. -/
def c7LiveObj : Obj := ⟨[("p", Value.vint 0)]⟩

/-- Concrete heap in which object 1 is alive. -/
def c7LiveHeap : Heap := fun id => if id = 1 then some c7LiveObj else none

/-- Concrete engine in `all` mode with interception active. -/
def c9State : EyeOnProps :=
  ⟨[⟨1, "p", "k", Value.vint 0⟩], EyeOnPropsMode.all, EyeOnPropsType.realTime,
   none, [(1, "k")]⟩

/-- Concrete objects and heap for the poll-tick scenario: entry `ka`
changed (0 to 1), entry `kb` unchanged (5). -/
def c4Obj1 : Obj := ⟨[("a", Value.vint 1)]⟩

/-- Concrete second object for the poll-tick scenario. -/
def c4Obj2 : Obj := ⟨[("b", Value.vint 5)]⟩

/-- Concrete heap for the poll-tick scenario. -/
def c4Heap : Heap :=
  fun id => if id = 1 then some c4Obj1 else if id = 2 then some c4Obj2 else none

/-- Concrete polling engine with two watched entries. -/
def c4State : EyeOnProps :=
  ⟨[⟨1, "a", "ka", Value.vint 0⟩, ⟨2, "b", "kb", Value.vint 5⟩],
   EyeOnPropsMode.changed, EyeOnPropsType.clock, some 100, [(1, "ka"), (2, "kb")]⟩

/-- C1: once interception has been activated (the detection type is
`real-time`), `clock(ms)` fails with `IllegalStrategyTransitionError` for
every interval value and returns the engine state unchanged — no timer is
armed, the strategy and the entries are exactly as before the call. -/
theorem clock_after_realTime (s : EyeOnProps) (ms : Nat)
    (hs : s.type = EyeOnPropsType.realTime) :
    s.clock ms = (s, some EyeError.illegalStrategyTransition) := by
  simp [EyeOnProps.clock, hs]

/-- Witness for C1 at a concrete state reached through `realTime()`. -/
theorem clock_after_realTime_witness :
    (initEyeOnProps.realTime).clock 1000 =
      (initEyeOnProps.realTime, some EyeError.illegalStrategyTransition) :=
  clock_after_realTime initEyeOnProps.realTime 1000 (by decide)

/-- C5: registering an attribute that is absent on the target object
fails with `AttributeNotFoundError` and returns the engine state
unchanged — in particular no entry is added and the registry size is the
same as before the call. -/
theorem addEntry_missing_attribute (s : EyeOnProps) (instId : Nat) (inst : Obj)
    (prop key : String) (hp : hasProp inst prop = false) :
    s.addEntry instId inst prop key = (s, some (EyeError.attributeNotFound prop)) := by
  simp [EyeOnProps.addEntry, hp]

/-- Witness for C5: watching a missing attribute on an empty object. -/
theorem addEntry_missing_attribute_witness :
    initEyeOnProps.addEntry 1 ⟨[]⟩ "ghost" "g" =
      (initEyeOnProps, some (EyeError.attributeNotFound "ghost")) :=
  addEntry_missing_attribute initEyeOnProps 1 ⟨[]⟩ "ghost" "g" (by decide)

/-- C10: a freshly constructed engine has emission policy `changed` and
detection type `undefined`, and neither a successful nor a failing
`clock()`/`addEntry()` call alters the emission policy, so the first
detection pass after registering and starting a strategy runs under
`changedOnly` semantics unless the caller explicitly selects `all`. -/
theorem fresh_engine_defaults :
    initEyeOnProps.mode = EyeOnPropsMode.changed ∧
    initEyeOnProps.type = EyeOnPropsType.undefined ∧
    (∀ (s : EyeOnProps) (ms : Nat), ((s.clock ms).1).mode = s.mode) ∧
    (∀ (s : EyeOnProps) (instId : Nat) (o : Obj) (p k : String),
      ((s.addEntry instId o p k).1).mode = s.mode) := by
  refine ⟨rfl, rfl, ?_, ?_⟩
  · intro s ms
    unfold EyeOnProps.clock
    split <;> rfl
  · intro s instId o p k
    unfold EyeOnProps.addEntry
    split <;> rfl

/-- Helper: folding the finalization callback over a list of held keys
filters out every entry whose display key occurs in that list. -/
theorem foldl_finalizeKey_entries (ks : List String) :
    ∀ s : EyeOnProps,
      (ks.foldl EyeOnProps.finalizeKey s).entries =
        s.entries.filter (fun e => decide (¬ e.key ∈ ks)) := by
  induction ks with
  | nil =>
    intro s
    simp
  | cons k ks ih =>
    intro s
    rw [List.foldl_cons, ih]
    simp only [EyeOnProps.finalizeKey]
    rw [List.filter_filter]
    apply List.filter_congr
    intro e _
    by_cases h1 : e.key = k <;> by_cases h2 : e.key ∈ ks <;> simp [h1, h2]

/-- C2 (amended): the finalization path removes entries by display key,
not by referent — collecting an object removes exactly the entries whose
display key is among the keys under which the collected object was
registered.  In particular, when every entry of the collected object has
a matching registration, all of its entries are gone afterwards; but an
entry of a different, still-reachable object sharing such a key is
removed as well (see the counterexample). -/
theorem onCollect_removes_by_key :
    (∀ (s : EyeOnProps) (objId : Nat),
      (s.onCollect objId).entries =
        s.entries.filter (fun e => decide (¬ e.key ∈ collectedKeys s objId))) ∧
    (∀ (s : EyeOnProps) (objId : Nat),
      (∀ e ∈ s.entries, e.instanceRef = objId → (objId, e.key) ∈ s.registrations) →
      ∀ e ∈ (s.onCollect objId).entries, e.instanceRef ≠ objId) := by
  have hmain : ∀ (s : EyeOnProps) (objId : Nat),
      (s.onCollect objId).entries =
        s.entries.filter (fun e => decide (¬ e.key ∈ collectedKeys s objId)) := by
    intro s objId
    exact foldl_finalizeKey_entries (collectedKeys s objId) s
  refine ⟨hmain, ?_⟩
  intro s objId hreg e he
  rw [hmain] at he
  rcases List.mem_filter.mp he with ⟨hmem, hpred⟩
  intro hid
  have hkey : e.key ∈ collectedKeys s objId := by
    have hr := hreg e hmem hid
    simp only [collectedKeys, List.mem_map]
    exact ⟨(objId, e.key), List.mem_filter.mpr ⟨hr, by simp⟩, rfl⟩
  simp [hkey] at hpred

/-- Counterexample to C2 as stated: in `c2cexState` objects 1 and 2 are
watched under the same display key `k`; before object 1 is collected an
entry whose referent is object 2 exists, and after the collection of
object 1 it has been removed, although object 2 was never collected. -/
theorem onCollect_removes_other_object :
    c2cexState.entries.countP (fun e => decide (e.instanceRef = 2)) = 1 ∧
    (c2cexState.onCollect 1).entries.countP (fun e => decide (e.instanceRef = 2)) = 0 := by
  decide

/-- Witness for the amended C2 theorem: collecting object 1 in
`c2cexState` (whose registrations cover all its entries) leaves no entry
whose referent is object 1. -/
theorem onCollect_removes_by_key_witness :
    (c2cexState.onCollect 1).entries.all (fun e => decide (e.instanceRef ≠ 1)) = true := by
  rw [List.all_eq_true]
  intro e he
  simpa using onCollect_removes_by_key.2 c2cexState 1 (by decide) e he

/-- C7 (amended): `unwatch(object)` removes every entry whose referent is
identical to the given object and, in addition, every entry whose
referent is unreachable; it is a no-op exactly on states in which every
entry's referent is reachable and distinct from the object.  (The claim's
unconditional no-op part fails when a dead entry exists — see the
counterexample.) -/
theorem unwatch_removes_object_and_dead :
    (∀ (h : Heap) (s : EyeOnProps) (objId : Nat) (e : WatchedEntry),
      e ∈ (s.unwatch h objId).entries ↔
        e ∈ s.entries ∧ (h e.instanceRef).isSome = true ∧ e.instanceRef ≠ objId) ∧
    (∀ (h : Heap) (s : EyeOnProps) (objId : Nat),
      (∀ e ∈ s.entries, (h e.instanceRef).isSome = true ∧ e.instanceRef ≠ objId) →
      s.unwatch h objId = s) := by
  constructor
  · intro h s objId e
    simp only [EyeOnProps.unwatch, List.mem_filter]
    cases hh : h e.instanceRef with
    | none => simp [hh]
    | some o => simp [hh]
  · intro h s objId hall
    have hfilter : s.entries.filter (fun e =>
        match h e.instanceRef with
        | some _ => decide (e.instanceRef ≠ objId)
        | none => false) = s.entries := by
      refine List.filter_eq_self.mpr ?_
      intro e he
      rcases hall e he with ⟨h1, h2⟩
      cases hh : h e.instanceRef with
      | none => rw [hh] at h1; simp at h1
      | some o => simp [h2]
    simp only [EyeOnProps.unwatch, hfilter]

/-- Counterexample to C7 as stated: in `c7State` no entry's referent is
object 5, yet under `deadHeap` (where the single entry's referent is
unreachable) `unwatch(5)` removes that entry — it is not a no-op. -/
theorem unwatch_not_noop_on_dead_entry :
    c7State.entries.length = 1 ∧
    c7State.entries.all (fun e => decide (e.instanceRef ≠ 5)) = true ∧
    (c7State.unwatch deadHeap 5).entries.length = 0 := by
  decide

/-- Witness for the amended C7 theorem: with every referent reachable and
different from object 5, `unwatch(5)` leaves the state unchanged. -/
theorem unwatch_removes_object_and_dead_witness :
    c7State.unwatch c7LiveHeap 5 = c7State :=
  unwatch_removes_object_and_dead.2 c7LiveHeap c7State 5 (by decide)

/-- C8: the poll detector never publishes a detailed old/new
notification — for every emission policy and every engine state a poll
tick emits at most one event, and no emitted event is `change:full`. -/
theorem check_never_emits_full :
    ∀ (s : EyeOnProps) (h : Heap),
      (s.check h).2.all (fun ev => !ev.isFull) = true ∧ (s.check h).2.length ≤ 1 := by
  intro s h
  constructor
  · simp only [EyeOnProps.check]
    split <;> simp [Event.isFull]
  · simp only [EyeOnProps.check]
    split <;> simp

/-- Helper: record assignment with a fresh key appends the binding. -/
theorem objInsert_eq_append {A : Type} {m : List (String × A)} {k : String} (v : A)
    (hk : ¬ k ∈ m.map Prod.fst) : objInsert m k v = m ++ [(k, v)] := by
  have hany : m.any (fun q => decide (q.1 = k)) = false := by
    rw [List.any_eq_false]
    intro q hq
    simp only [decide_eq_true_eq]
    intro hqk
    exact hk (List.mem_map.mpr ⟨q, hq, hqk⟩)
  simp [objInsert, hany]

/-- Helper: the surviving-entry component of the check loop does not
depend on the updates accumulator and matches `pollResultEntries`. -/
theorem checkLoop_fst (mode : EyeOnPropsMode) (h : Heap) :
    ∀ (es : List WatchedEntry) (updates : Payload),
      (checkLoop mode h es updates).1 = pollResultEntries h es := by
  intro es
  induction es with
  | nil =>
    intro updates
    rfl
  | cons e rest ih =>
    intro updates
    cases hh : h e.instanceRef with
    | none =>
      simp [checkLoop, hh, pollResultEntries, List.filterMap_cons, ih]
    | some inst =>
      by_cases hc : readProp inst e.prop = e.lastValue
      · simp [checkLoop, hh, hc, pollResultEntries, List.filterMap_cons, ih]
      · simp [checkLoop, hh, hc, pollResultEntries, List.filterMap_cons, ih]

/-- Helper: with pairwise distinct entry keys, all of them fresh for the
accumulated record, the check loop's record is the accumulator followed
by the payload the specification describes. -/
theorem checkLoop_snd (mode : EyeOnPropsMode) (h : Heap) :
    ∀ (es : List WatchedEntry) (updates : Payload),
      (es.map (fun e => e.key)).Nodup →
      (∀ e ∈ es, ¬ e.key ∈ updates.map Prod.fst) →
      (checkLoop mode h es updates).2 = updates ++ specPollPayload mode h es := by
  intro es
  induction es with
  | nil =>
    intro updates _ _
    simp [checkLoop, specPollPayload]
  | cons e rest ih =>
    intro updates hnd hfresh
    have hnd1 : ¬ e.key ∈ rest.map (fun x => x.key) := (List.nodup_cons.mp hnd).1
    have hnd2 : (rest.map (fun x => x.key)).Nodup := (List.nodup_cons.mp hnd).2
    cases hh : h e.instanceRef with
    | none =>
      have hrec := ih updates hnd2 (fun x hx => hfresh x (List.mem_cons_of_mem _ hx))
      simp [checkLoop, hh, specPollPayload, List.filterMap_cons, hrec]
    | some inst =>
      by_cases hc : mode = EyeOnPropsMode.all ∨ readProp inst e.prop ≠ e.lastValue
      · have hkfresh : ¬ e.key ∈ updates.map Prod.fst := hfresh e (List.mem_cons_self e rest)
        have hins : objInsert updates e.key (readProp inst e.prop) =
            updates ++ [(e.key, readProp inst e.prop)] := objInsert_eq_append _ hkfresh
        have hfresh' : ∀ x ∈ rest,
            ¬ x.key ∈ (updates ++ [(e.key, readProp inst e.prop)]).map Prod.fst := by
          intro x hx
          rw [List.map_append]
          intro hmem
          rcases List.mem_append.mp hmem with hmem1 | hmem2
          · exact hfresh x (List.mem_cons_of_mem _ hx) hmem1
          · simp only [List.map_cons, List.map_nil, List.mem_singleton] at hmem2
            exact hnd1 (hmem2 ▸ List.mem_map.mpr ⟨x, hx, rfl⟩)
        have hrec := ih (updates ++ [(e.key, readProp inst e.prop)]) hnd2 hfresh'
        simp [checkLoop, hh, hc, hins, hrec, specPollPayload, List.filterMap_cons]
      · have hrec := ih updates hnd2 (fun x hx => hfresh x (List.mem_cons_of_mem _ hx))
        simp [checkLoop, hh, hc, specPollPayload, List.filterMap_cons, hrec]

/-- C4: on a poll tick with pairwise distinct display keys, the payload
is exactly the one the specification describes — under `changedOnly` the
reachable entries whose current value differs from the cached
`lastValue`, under `all` the current value of every reachable entry — a
`change` event is published precisely when that payload is non-empty,
and the surviving entries have `lastValue` re-stamped exactly where the
value changed. -/
theorem check_poll_semantics (s : EyeOnProps) (h : Heap)
    (hnd : (s.entries.map (fun e => e.key)).Nodup) :
    s.check h =
      ({ s with entries := pollResultEntries h s.entries },
       if specPollPayload s.mode h s.entries = [] then []
       else [Event.change (specPollPayload s.mode h s.entries)]) := by
  have h1 := checkLoop_fst s.mode h s.entries []
  have h2 := checkLoop_snd s.mode h s.entries [] hnd (by simp)
  simp only [EyeOnProps.check, h1, h2, List.nil_append]

/-- Witness for C4: one changed and one unchanged entry under
`changedOnly`; the tick payload holds exactly the changed entry. -/
theorem check_poll_semantics_witness :
    c4State.check c4Heap =
      ({ c4State with entries := pollResultEntries c4Heap c4State.entries },
       if specPollPayload c4State.mode c4Heap c4State.entries = [] then []
       else [Event.change (specPollPayload c4State.mode c4Heap c4State.entries)]) :=
  check_poll_semantics c4State c4Heap (by decide)

/-- Helper: re-stamping `lastValue` at a valid position leaves the
structural identity of every entry unchanged. -/
theorem map_set_skeleton :
    ∀ (l : List WatchedEntry) (i : Nat) (e : WatchedEntry) (v : Value),
      l[i]? = some e →
      (l.set i { e with lastValue := v }).map entrySkeleton = l.map entrySkeleton := by
  intro l
  induction l with
  | nil =>
    intro i e v hi
    simp at hi
  | cons a t ih =>
    intro i e v hi
    cases i with
    | zero =>
      simp only [List.getElem?_cons_zero, Option.some.injEq] at hi
      subst hi
      simp [entrySkeleton]
    | succ n =>
      simp only [List.getElem?_cons_succ] at hi
      simp [List.set, entrySkeleton, ih n e v hi]

/-- Helper: one step of `pollResultEntries` on an unreachable entry. -/
theorem pollResultEntries_cons_none (h : Heap) (e : WatchedEntry)
    (rest : List WatchedEntry) (hh : h e.instanceRef = none) :
    pollResultEntries h (e :: rest) = pollResultEntries h rest := by
  simp only [pollResultEntries, List.filterMap_cons, hh]

/-- Helper: one step of `pollResultEntries` on a reachable entry. -/
theorem pollResultEntries_cons_some (h : Heap) (e : WatchedEntry)
    (rest : List WatchedEntry) (inst : Obj) (hh : h e.instanceRef = some inst) :
    pollResultEntries h (e :: rest) =
      (if readProp inst e.prop ≠ e.lastValue
       then { e with lastValue := readProp inst e.prop } else e) ::
        pollResultEntries h rest := by
  by_cases hc : readProp inst e.prop ≠ e.lastValue
  · simp only [pollResultEntries, List.filterMap_cons, hh, if_pos hc]
  · simp only [pollResultEntries, List.filterMap_cons, hh, if_neg hc]

/-- Helper: after a poll tick the surviving entries are structurally the
reachable entries, in order. -/
theorem pollResultEntries_skeleton (h : Heap) :
    ∀ es : List WatchedEntry,
      (pollResultEntries h es).map entrySkeleton =
        (es.filter (fun e => (h e.instanceRef).isSome)).map entrySkeleton := by
  intro es
  induction es with
  | nil => rfl
  | cons e rest ih =>
    cases hh : h e.instanceRef with
    | none =>
      rw [pollResultEntries_cons_none h e rest hh, ih]
      simp [List.filter_cons, hh]
    | some inst =>
      rw [pollResultEntries_cons_some h e rest inst hh]
      by_cases hc : readProp inst e.prop ≠ e.lastValue <;>
        simp [hc, List.filter_cons, hh, entrySkeleton, ih]

/-- Helper: whenever the intercepted setter returns normally, the entry
list of the resulting state has the same structural skeleton as before
(only `lastValue` fields can differ). -/
theorem realTimeSet_entries_shape (s : EyeOnProps) (h : Heap) (i : Nat) (v : Value)
    (r : EyeOnProps × Heap × List Event) (hr : s.realTimeSet h i v = Except.ok r) :
    r.1.entries.map entrySkeleton = s.entries.map entrySkeleton := by
  unfold EyeOnProps.realTimeSet at hr
  split at hr
  · rw [Except.ok.injEq] at hr
    subst hr
    rfl
  · rename_i e he
    split at hr
    · rw [Except.ok.injEq] at hr
      subst hr
      rfl
    · split at hr
      · rw [Except.ok.injEq] at hr
        subst hr
        rfl
      · split at hr
        · rw [Except.ok.injEq] at hr
          subst hr
          exact map_set_skeleton s.entries i e v he
        · split at hr
          · cases hfull : s.buildFullAllPayload (heapWrite h e.instanceRef e.prop v) with
            | error err =>
              simp only [hfull] at hr
              exact absurd hr (by simp)
            | ok p =>
              simp only [hfull, Except.ok.injEq] at hr
              subst hr
              exact map_set_skeleton s.entries i e v he
          · rw [Except.ok.injEq] at hr
            subst hr
            exact map_set_skeleton s.entries i e v he

/-- C6 (amended): a detection pass never adds entries and rewrites only
`lastValue` fields, but the poll tick does structurally shrink the entry
set: it removes exactly the entries whose referent is unreachable (the
survivors are, structurally, the reachable entries in order), while an
intercepted write leaves the entry set structurally untouched.  The
claim's assertion that a poll tick only skips unreachable entries fails —
see the counterexample. -/
theorem detector_entry_structure :
    (∀ (s : EyeOnProps) (h : Heap),
      (s.check h).1.entries = pollResultEntries h s.entries) ∧
    (∀ (s : EyeOnProps) (h : Heap),
      (s.check h).1.entries.map entrySkeleton =
        (s.entries.filter (fun e => (h e.instanceRef).isSome)).map entrySkeleton) ∧
    (∀ (s : EyeOnProps) (h : Heap) (i : Nat) (v : Value),
      match s.realTimeSet h i v with
      | Except.ok r => r.1.entries.map entrySkeleton = s.entries.map entrySkeleton
      | Except.error _ => True) := by
  have h1 : ∀ (s : EyeOnProps) (h : Heap),
      (s.check h).1.entries = pollResultEntries h s.entries := by
    intro s h
    simp only [EyeOnProps.check, checkLoop_fst]
  refine ⟨h1, ?_, ?_⟩
  · intro s h
    rw [h1, pollResultEntries_skeleton]
  · intro s h i v
    cases hr : s.realTimeSet h i v with
    | ok r => exact realTimeSet_entries_shape s h i v r hr
    | error err => trivial

/-- Counterexample to C6 as stated: `c6State` has one entry; under
`deadHeap` its referent is unreachable, and a single poll tick removes
the entry from the entry set instead of merely skipping it. -/
theorem check_removes_dead_entry :
    c6State.entries.length = 1 ∧ (c6State.check deadHeap).1.entries.length = 0 := by
  decide

/-- C3: under `changedOnly` with interception active, writing a value
that strictly differs from the value stored by the interceptor
synchronously produces a `change` event with payload `[(key, v)]` first,
followed — exactly when `v` also differs from the entry's pre-write
`lastValue` — by a `change:full` event with payload
`[(key, (v, old lastValue))]`, and stamps `lastValue := v`; writing a
value strictly equal to the stored value produces no events and leaves
the engine state (including `lastValue`) and the heap unchanged. -/
theorem realTimeSet_changedOnly (s : EyeOnProps) (h : Heap) (i : Nat)
    (e : WatchedEntry) (inst : Obj) (v : Value)
    (hm : s.mode = EyeOnPropsMode.changed)
    (he : s.entries[i]? = some e)
    (hinst : h e.instanceRef = some inst) :
    (v ≠ readProp inst e.prop →
      s.realTimeSet h i v = Except.ok
        ({ s with entries := s.entries.set i { e with lastValue := v } },
         heapWrite h e.instanceRef e.prop v,
         Event.change [(e.key, v)] ::
         (if v = e.lastValue then []
          else [Event.changeFull [(e.key, (v, e.lastValue))]]))) ∧
    (v = readProp inst e.prop → s.realTimeSet h i v = Except.ok (s, h, [])) := by
  constructor
  · intro hv
    have hm1 : ¬ s.mode = EyeOnPropsMode.undefined := by
      rw [hm]
      intro hcon
      cases hcon
    have hm2 : ¬ s.mode = EyeOnPropsMode.all := by
      rw [hm]
      intro hcon
      cases hcon
    unfold EyeOnProps.realTimeSet
    simp only [he, hinst, if_neg hv, if_neg hm1, if_neg hm2]
    by_cases hl : v = e.lastValue
    · simp [hl]
    · simp [hl]
  · intro hv
    unfold EyeOnProps.realTimeSet
    simp only [he, hinst, if_pos hv]

/-- Witness for C3 at the concrete interception scenario: writing `X`
over stored `A` emits the `change` then the `change:full` event and
re-stamps the entry. -/
theorem realTimeSet_changedOnly_witness :
    c3State.realTimeSet c3Heap 0 (Value.vstr "X") = Except.ok
      ({ c3State with
          entries := c3State.entries.set 0 { c3Entry with lastValue := Value.vstr "X" } },
       heapWrite c3Heap c3Entry.instanceRef c3Entry.prop (Value.vstr "X"),
       Event.change [("n", Value.vstr "X")] ::
       (if Value.vstr "X" = Value.vstr "A" then []
        else [Event.changeFull [("n", (Value.vstr "X", Value.vstr "A"))]])) :=
  (realTimeSet_changedOnly c3State c3Heap 0 c3Entry c3Obj (Value.vstr "X")
    rfl rfl (by decide)).1 (by decide)

/-- Helper: under `all` mode the detailed payload builder returns
normally. -/
theorem buildFullAllPayload_ok (s : EyeOnProps) (h : Heap)
    (hm : s.mode = EyeOnPropsMode.all) :
    ∃ p, s.buildFullAllPayload h = Except.ok p := by
  unfold EyeOnProps.buildFullAllPayload
  rw [if_neg (by simp [hm])]
  exact ⟨_, rfl⟩

/-- Helper: the intercepted setter returns normally on every input. -/
theorem realTimeSet_total (s : EyeOnProps) (h : Heap) (i : Nat) (v : Value) :
  ∃ r, s.realTimeSet h i v = Except.ok r := by
  unfold EyeOnProps.realTimeSet
  cases he : s.entries[i]? with
  | none => exact ⟨_, rfl⟩
  | some e =>
    cases hh : h e.instanceRef with
    | none =>
      exact ⟨(s, h, []), by simp only [hh]⟩
    | some inst =>
      by_cases hv : v = readProp inst e.prop
      · exact ⟨(s, h, []), by simp only [hh, if_pos hv]⟩
      · by_cases hm : s.mode = EyeOnPropsMode.undefined
        · exact ⟨({ s with entries := s.entries.set i { e with lastValue := v } },
                  heapWrite h e.instanceRef e.prop v, []),
                 by simp only [hh, if_neg hv, if_pos hm]⟩
        · by_cases hma : s.mode = EyeOnPropsMode.all
          · rcases buildFullAllPayload_ok s (heapWrite h e.instanceRef e.prop v) hma
              with ⟨p, hp⟩
            exact ⟨({ s with entries := s.entries.set i { e with lastValue := v } },
                    heapWrite h e.instanceRef e.prop v,
                    (if s.buildAllPayload (heapWrite h e.instanceRef e.prop v) = []
                     then []
                     else [Event.change
                       (s.buildAllPayload (heapWrite h e.instanceRef e.prop v))]) ++
                    (if p = [] then [] else [Event.changeFull p])),
                   by simp only [hh, if_neg hv, if_neg hm, if_pos hma, hp]⟩
          · exact ⟨({ s with entries := s.entries.set i { e with lastValue := v } },
                    heapWrite h e.instanceRef e.prop v,
                    (if [(e.key, v)] = ([] : Payload) then []
                     else [Event.change [(e.key, v)]]) ++
                    (if (if v ≠ e.lastValue
                         then [(e.key, (v, e.lastValue))] else []) = ([] : FullPayload)
                     then []
                     else [Event.changeFull
                       (if v ≠ e.lastValue then [(e.key, (v, e.lastValue))] else [])])),
                   by simp only [hh, if_neg hv, if_neg hm, if_neg hma]⟩

/-- C9: the internal consistency guard of `buildFullAllPayload` fires
exactly when the emission policy is not `all` — it returns a payload
under `all` and the `InvalidModeOperationError` otherwise — and the
guard is unreachable from the public surface: the intercepted setter
never propagates that error, returning normally on every input. -/
theorem buildFullAllPayload_guarded :
    (∀ (s : EyeOnProps) (h : Heap),
      (s.mode = EyeOnPropsMode.all → exceptIsOk (s.buildFullAllPayload h) = true) ∧
      (s.mode ≠ EyeOnPropsMode.all →
        s.buildFullAllPayload h = Except.error EyeError.invalidModeOperation)) ∧
    (∀ (s : EyeOnProps) (h : Heap) (i : Nat) (v : Value),
      exceptIsOk (s.realTimeSet h i v) = true) := by
  constructor
  · intro s h
    constructor
    · intro hm
      rcases buildFullAllPayload_ok s h hm with ⟨p, hp⟩
      rw [hp]
      rfl
    · intro hm
      simp [EyeOnProps.buildFullAllPayload, hm]
  · intro s h i v
    rcases realTimeSet_total s h i v with ⟨r, hr⟩
    rw [hr]
    rfl

/-- Witness for C9: under `all` mode the detailed payload builder
succeeds, and a concrete intercepted write returns normally. -/
theorem buildFullAllPayload_guarded_witness :
    exceptIsOk (c9State.buildFullAllPayload c7LiveHeap) = true ∧
    exceptIsOk (c9State.realTimeSet c7LiveHeap 0 (Value.vint 7)) = true :=
  ⟨(buildFullAllPayload_guarded.1 c9State c7LiveHeap).1 rfl,
   buildFullAllPayload_guarded.2 c9State c7LiveHeap 0 (Value.vint 7)⟩
